import Mathlib

/-
Verification of the KIND preliminary-earnings disclosure pipeline
(scripts/2_DART_Prelim_Earnings.py): shallow embedding of the lister,
table extractor/scorer, numeric cleaner, normalizer, ledger loader and
the notification data flow of main, with theorems about the spec's claims.
-/

namespace DartPrelim

/-- A pandas cell as seen by the script: `none` models NA/None, `some s`
models a cell whose `str()` rendering is `s`. -/
abbrev Cell := Option String

/-- Characters of a string with leading and trailing whitespace removed;
models Python `str.strip()` (and the whitespace tolerance of `float()`). -/
def trimChars (l : List Char) : List Char :=
  ((l.dropWhile Char.isWhitespace).reverse.dropWhile Char.isWhitespace).reverse

/-- Does `hay` start with `needle`? Helper for substring containment. -/
def listStarts : List Char → List Char → Bool
  | [], _ => true
  | _ :: _, [] => false
  | a :: as, b :: bs => a == b && listStarts as bs

/-- Does `needle` occur as a contiguous run inside `hay`?  Models the
Python substring test `needle in hay`. -/
def listSub : List Char → List Char → Bool
  | needle, [] => needle.isEmpty
  | needle, c :: t => listStarts needle (c :: t) || listSub needle t

/-- Python `sub in hay` on strings. -/
def strContains (hay sub : String) : Bool :=
  listSub sub.toList hay.toList

/-- Numeric value of a decimal digit character. -/
def digVal (c : Char) : Nat := c.toNat - 48

/-- Value of a run of decimal digit characters. -/
def digitsToNat (l : List Char) : Nat := l.foldl (fun n c => 10 * n + digVal c) 0

/-- Unsigned decimal number: digits with an optional single point, at
least one digit.  Models the plain-decimal subset of Python `float()`
(the disclosure tables produce no exponent/underscore/infinity forms). -/
def parseUnsignedDec (l : List Char) : Option ℚ :=
  let ip := l.takeWhile Char.isDigit
  let rest := l.dropWhile Char.isDigit
  match rest with
  | [] => if ip.isEmpty then none else some (digitsToNat ip : ℚ)
  | '.' :: fp =>
    if fp.all Char.isDigit && !(ip.isEmpty && fp.isEmpty) then
      some ((digitsToNat ip : ℚ) + (digitsToNat fp : ℚ) / (10 : ℚ) ^ fp.length)
    else none
  | _ => none

/-- Python `float(s)` on the decimal subset: optional surrounding
whitespace, optional sign, then an unsigned decimal; `none` models a
raised `ValueError`.  Cell numerics are modeled as exact rationals: the
claims' expected values are short decimal literals, where binary
floating-point rounding is immaterial to the stated equalities. -/
def parseDec (l : List Char) : Option ℚ :=
  match trimChars l with
  | '-' :: rest => (parseUnsignedDec rest).map Neg.neg
  | '+' :: rest => parseUnsignedDec rest
  | rest => parseUnsignedDec rest

/-- `str.replace(',','').replace('%','')` of the script's `clean_numeric`. -/
def stripSeps (l : List Char) : List Char :=
  l.filter (fun c => !(c == ',') && !(c == '%'))

/-- The parenthesized-negative rewrite of `clean_numeric`: a value that
starts with `(` and ends with `)` becomes `-` followed by the inside. -/
def parenNeg (l : List Char) : List Char :=
  match l with
  | '(' :: rest =>
    if rest ≠ [] && rest.getLast? == some ')' then '-' :: rest.dropLast
    else '(' :: rest
  | l => l

/-- `clean_numeric` of the script: NA, a dash or an empty cell is `none`;
otherwise strip whitespace, thousands separators and percent signs,
rewrite a parenthesized value as negative and parse as a float, with a
parse failure becoming `none` (the `except ValueError` branch). -/
def clean_numeric : Cell → Option ℚ
  | none => none
  | some s =>
    if s == "-" || s == "" then none
    else parseDec (parenNeg (stripSeps (trimChars s.toList)))

/-- `standardize_turnaround` of the script: NA becomes a dash; a value
containing a swing-to-profit marker becomes the canonical profit label,
a swing-to-loss marker the canonical loss label; otherwise the trimmed
text passes through, with empty or dash collapsing to a dash. -/
def standardize_turnaround : Cell → String
  | none => "-"
  | some s =>
    let t := String.mk (trimChars s.toList)
    if strContains t "흑자" || strContains t "흑전" then "흑자전환"
    else if strContains t "적자" || strContains t "적전" then "적자전환"
    else if t ≠ "" && t ≠ "-" then t else "-"

/-- A pandas DataFrame as the script observes it: its cell values row by
row (`df.iterrows`), its column count (`len(df.columns)`) and its textual
rendering (`df.to_string()`).  `df.empty` is `rows = [] ∨ ncols = 0`. -/
structure DFrame where
  rows : List (List Cell)
  ncols : Nat
  rendering : String
deriving DecidableEq

/-- The score computed for one candidate table inside
`extract_earnings_table` (sequential accumulation mirroring the
`score += ...` statements of the source): +10 per required metric
keyword in the rendering, +5 for a current-period keyword (당기 or 당해),
+5 for the prior-period keyword 전기, +5 for the prior-year keyword
전년동기, +5 when the row count is in [3,30] and the column count in
[3,15]. -/
def tableScore (t : DFrame) : Nat :=
  let score := 0
  let score := if strContains t.rendering "매출액" then score + 10 else score
  let score := if strContains t.rendering "영업이익" then score + 10 else score
  let score := if strContains t.rendering "당기순이익" then score + 10 else score
  let score := if strContains t.rendering "당기" || strContains t.rendering "당해" then score + 5 else score
  let score := if strContains t.rendering "전기" then score + 5 else score
  let score := if strContains t.rendering "전년동기" then score + 5 else score
  let score :=
    if 3 ≤ t.rows.length ∧ t.rows.length ≤ 30 ∧ 3 ≤ t.ncols ∧ t.ncols ≤ 15 then score + 5
    else score
  score

/-- Modelled from the claim's wording of the scoring function: +10 per
required domain keyword, +5 for the presence of each period-indicator
keyword read as current-period (당기/당해), cumulative (누계, the
repository's cumulative-scope marker) and prior-year (전년동기), +5 for
the size bonus.  For comparison with `tableScore`, which the source
computes with the prior-period keyword 전기 in place of cumulative. -/
def claimScoreC3 (t : DFrame) : Nat :=
  (if strContains t.rendering "매출액" then 10 else 0)
  + (if strContains t.rendering "영업이익" then 10 else 0)
  + (if strContains t.rendering "당기순이익" then 10 else 0)
  + (if strContains t.rendering "당기" || strContains t.rendering "당해" then 5 else 0)
  + (if strContains t.rendering "누계" then 5 else 0)
  + (if strContains t.rendering "전년동기" then 5 else 0)
  + (if 3 ≤ t.rows.length ∧ t.rows.length ≤ 30 ∧ 3 ≤ t.ncols ∧ t.ncols ≤ 15 then 5 else 0)

/-- The selection loop of `extract_earnings_table`: skip empty frames,
keep the first table whose score strictly exceeds the best so far
(`score > best_score`, best starting at 0). -/
def extractLoop : List DFrame → Option DFrame → Nat → Option DFrame
  | [], best, _ => best
  | t :: rest, best, bestScore =>
    if t.rows.isEmpty || t.ncols == 0 then extractLoop rest best bestScore
    else
      let score := tableScore t
      if bestScore < score then extractLoop rest (some t) score
      else extractLoop rest best bestScore

/-- `extract_earnings_table` of the script: empty input text gives
`none`; a `pd.read_html` parse failure (`readHtml` returning `none`)
gives `none`; an empty table list gives `none`; otherwise the best table
of the selection loop (still `none` when no table scores above zero). -/
def extract_earnings_table (readHtml : String → Option (List DFrame)) (html : String) :
    Option DFrame :=
  if html == "" then none
  else
    match readHtml html with
    | none => none
    | some tables => if tables.isEmpty then none else extractLoop tables none 0

/-- `listStarts` is the list-theoretic "starts with". -/
theorem listStarts_iff : ∀ (n h : List Char), listStarts n h = true ↔ ∃ t, n ++ t = h
  | [], h => by simp [listStarts]
  | _ :: _, [] => by simp [listStarts]
  | a :: as, b :: bs => by
    simp only [listStarts, Bool.and_eq_true, beq_iff_eq, List.cons_append, List.cons.injEq]
    rw [listStarts_iff as bs]
    constructor
    · rintro ⟨rfl, t, rfl⟩
      exact ⟨t, rfl, rfl⟩
    · rintro ⟨t, rfl, rfl⟩
      exact ⟨rfl, t, rfl⟩

/-- `listSub` is the list-theoretic "occurs contiguously inside". -/
theorem listSub_iff : ∀ (n h : List Char), listSub n h = true ↔ ∃ p t, p ++ n ++ t = h
  | n, [] => by
    simp only [listSub, List.isEmpty_iff]
    constructor
    · rintro rfl
      exact ⟨[], [], rfl⟩
    · rintro ⟨p, t, hh⟩
      rcases List.append_eq_nil.mp hh with ⟨h1, -⟩
      exact (List.append_eq_nil.mp h1).2
  | n, c :: t => by
    simp only [listSub, Bool.or_eq_true, listStarts_iff, listSub_iff n t]
    constructor
    · rintro (⟨s, hs⟩ | ⟨p, s, hs⟩)
      · exact ⟨[], s, by simpa using hs⟩
      · refine ⟨c :: p, s, ?_⟩
        simpa using hs
    · rintro ⟨p, s, hh⟩
      cases p with
      | nil => exact Or.inl ⟨s, by simpa using hh⟩
      | cons x xs =>
        injection hh with h1 h2
        exact Or.inr ⟨xs, s, h2⟩

/-- Contiguous containment is transitive. -/
theorem listSub_trans {a b c : List Char} (h1 : listSub a b = true)
    (h2 : listSub b c = true) : listSub a c = true := by
  rw [listSub_iff] at *
  obtain ⟨p, t, rfl⟩ := h1
  obtain ⟨q, s, rfl⟩ := h2
  exact ⟨q ++ p, t ++ s, by simp⟩

/-- A rendering containing the net-income keyword 당기순이익 also contains
the current-period keyword 당기 (the former extends the latter). -/
theorem contains_dangi {r : String} (h : strContains r "당기순이익" = true) :
    strContains r "당기" = true :=
  listSub_trans (by decide) h

/-- `METRIC_ORDER` of the script: the known metric labels, in match and
presentation order. -/
def METRIC_ORDER : List String :=
  ["매출액", "영업이익", "법인세비용차감전계속사업이익", "당기순이익"]

/-- `str(cell).strip()` guarded by `pd.notna`, as the normalizer reads
its first two columns: an NA cell reads as the empty string. -/
def cellStr : Cell → String
  | none => ""
  | some s => String.mk (trimChars s.toList)

/-- One long-format normalized record, with the fields produced by
`normalize_earnings_table`. -/
structure NormRecord where
  corp_name : String
  stock_code : String
  rcp_no : String
  report_date : String
  metric : String
  scope : String
  value_current : Option ℚ
  value_prev : Option ℚ
  qoq_change_pct : Option ℚ
  qoq_turnaround : String
  value_yoy : Option ℚ
  yoy_change_pct : Option ℚ
  yoy_turnaround : String
  unit_value : String
  unit_pct : String
deriving DecidableEq

/-- The body of the row loop of `normalize_earnings_table`: a row of
fewer than three cells is dropped; the metric is the first entry of
`METRIC_ORDER` contained in the first cell, the scope comes from a
당해/누계 substring of the second (or first) cell; rows matching no
metric or no scope are dropped; values are read by fixed column offsets
2..8 through `clean_numeric` and `standardize_turnaround`, with a
missing column giving the cleaner's NA result (`None` / dash). -/
def rowToRecord (corp stock acpt rdate : String) (row : List Cell) : Option NormRecord :=
  if row.length < 3 then none
  else
    let col0 := cellStr (row.getD 0 none)
    match METRIC_ORDER.find? (fun m => strContains col0 m) with
    | none => none
    | some metric =>
      let col1 := cellStr (row.getD 1 none)
      let scope :=
        if strContains col1 "당해" || strContains col0 "당해" then some "당해실적"
        else if strContains col1 "누계" || strContains col0 "누계" then some "누계실적"
        else none
      match scope with
      | none => none
      | some scope =>
        some { corp_name := corp
               stock_code := stock
               rcp_no := acpt
               report_date := rdate
               metric := metric
               scope := scope
               value_current := clean_numeric (row.getD 2 none)
               value_prev := clean_numeric (row.getD 3 none)
               qoq_change_pct := clean_numeric (row.getD 4 none)
               qoq_turnaround := standardize_turnaround (row.getD 5 none)
               value_yoy := clean_numeric (row.getD 6 none)
               yoy_change_pct := clean_numeric (row.getD 7 none)
               yoy_turnaround := standardize_turnaround (row.getD 8 none)
               unit_value := "KRW_million"
               unit_pct := "percent" }

/-- `normalize_earnings_table` of the script, long-format output: one
record per table row that matches a known metric and scope, in row
order (the wide sheet is a derived sorted projection of these records
and carries no further information). -/
def normalize_earnings_table (df : DFrame) (corp stock acpt rdate : String) :
    List NormRecord :=
  df.rows.filterMap (rowToRecord corp stock acpt rdate)

/-- `str.zfill(6)` on a digit string: left-pad with zeros to width 6. -/
def zfill6 (s : String) : String :=
  if s.length < 6 then String.mk (List.replicate (6 - s.length) (Char.ofNat 48)) ++ s
  else s

/-- Try to match, at the head of `hay`, the pattern of the script's
accession/stock-code regexes: the literal `lit`, an opening parenthesis,
a quote, one or more digits, a quote; return the digit run. -/
def matchPatAt (lit hay : List Char) : Option String :=
  if listStarts lit hay then
    match hay.drop lit.length with
    | a :: b :: rest =>
      if a.toNat == 40 && b.toNat == 39 then
        let ds := rest.takeWhile Char.isDigit
        if !ds.isEmpty && ((rest.dropWhile Char.isDigit).head?.map Char.toNat == some 39) then
          some (String.mk ds)
        else none
      else none
    | _ => none
  else none

/-- `re.search` for the above pattern: leftmost position where the full
pattern matches, as the regex engine scans. -/
def scanPat (lit : List Char) : List Char → Option String
  | [] => none
  | c :: t =>
    match matchPatAt lit (c :: t) with
    | some d => some d
    | none => scanPat lit (t : List Char)

/-- One listing row as the lister observes it through the HTML soup: the
count of td cells, the stripped text and onclick attribute of the title
anchor in the third cell (if any), the text and onclick of the company
anchor in the second cell (if any), and the stripped texts of the time
and submitter cells. -/
structure LRow where
  numCols : Nat
  titleAnchor : Option (String × String)
  companyAnchor : Option (String × String)
  timeText : String
  submitterText : String
deriving DecidableEq

/-- One discovered disclosure, as appended to the lister's list. -/
structure Disclosure where
  time : String
  stock_code : String
  corp_name : String
  title : String
  acptno : String
  submitter : String
  date : String
deriving DecidableEq

/-- The per-row body of the lister's loop: a row with fewer than four
cells, without a title anchor, whose title lacks the 잠정 marker or whose
onclick yields no accession number is skipped; otherwise the disclosure
dict is built (company name and zero-filled stock code when the company
anchor and its onclick pattern are present, else empty strings). -/
def rowRecord (searchDate : String) (r : LRow) : Option Disclosure :=
  if r.numCols < 4 then none
  else
    match r.titleAnchor with
    | none => none
    | some (title, onclick) =>
      if !(strContains title "잠정") then none
      else
        match scanPat "openDisclsViewer".toList onclick.toList with
        | none => none
        | some acptno =>
          let corpName := (r.companyAnchor.map Prod.fst).getD ""
          let corpOnclick := (r.companyAnchor.map Prod.snd).getD ""
          let stockCode :=
            match scanPat "companysummary_open".toList corpOnclick.toList with
            | some code => zfill6 code
            | none => ""
          some { time := r.timeText
                 stock_code := stockCode
                 corp_name := corpName
                 title := title
                 acptno := acptno
                 submitter := r.submitterText
                 date := searchDate }

/-- The row loop of `search_prelim_earnings_kind` over one page: skipped
rows leave the accumulator unchanged; a row whose accession number is
already accumulated is skipped (first occurrence kept); otherwise its
record is appended. -/
def procRows (d : String) : List LRow → List Disclosure → List Disclosure
  | [], acc => acc
  | r :: rest, acc =>
    match rowRecord d r with
    | none => procRows d rest acc
    | some rec =>
      if acc.any (fun x => x.acptno == rec.acptno) then procRows d rest acc
      else procRows d rest (acc ++ [rec])

/-- The pagination loop of `search_prelim_earnings_kind`: pages are
fetched while `page <= max_pages` (fuel counts the remaining allowed
pages, 10 at the start); a page fetch may raise (`Except.error`), which
propagates to the enclosing handler; a page of zero rows stops, a page
of fewer than 500 rows stops after processing; the second result
component counts fetched pages (instrumentation for the termination
property, not data of the script). -/
def listLoop (d : String) (src : Nat → Except String (List LRow)) :
    Nat → Nat → List Disclosure → Nat → Except String (List Disclosure × Nat)
  | 0, _, acc, fetched => Except.ok (acc, fetched)
  | fuel + 1, page, acc, fetched =>
    match src page with
    | Except.error e => Except.error e
    | Except.ok rows =>
      if rows.length == 0 then Except.ok (acc, fetched + 1)
      else
        let acc2 := procRows d rows acc
        if rows.length < 500 then Except.ok (acc2, fetched + 1)
        else listLoop d src fuel (page + 1) acc2 (fetched + 1)

/-- `search_prelim_earnings_kind` of the script: the whole pagination
loop runs inside one try block; any exception is caught at the top and
an empty listing is returned (the `except` branch returns an empty
DataFrame).  The page source abstracts the POST + soup row selection of
one listing page. -/
def search_prelim_earnings_kind (d : String) (src : Nat → Except String (List LRow)) :
    List Disclosure × Nat :=
  match listLoop d src 10 1 [] 0 with
  | Except.ok res => res
  | Except.error _ => ([], 0)

/-- A listing source with a single page of rows (every later page is
empty), for single-page statements about the lister. -/
def onePage (rows : List LRow) : Nat → Except String (List LRow) :=
  fun p => if p == 1 then Except.ok rows else Except.ok []

/-- The observable outcomes of reading the ledger file at the top of
`load_sent_log`: the file is missing (`os.path.exists` false), opening
or JSON-parsing it raised (caught by the bare except), or it parsed to a
document whose optional field is `data.get('sent_acptno')`. -/
inductive LedgerRead where
  | missing : LedgerRead
  | unreadable : LedgerRead
  | parsed : Option (List String) → LedgerRead
deriving DecidableEq

/-- `load_sent_log` of the script: the sent-accession set, empty unless
the ledger file exists, parses, and carries the sent-id list. -/
def load_sent_log : LedgerRead → List String
  | LedgerRead.missing => []
  | LedgerRead.unreadable => []
  | LedgerRead.parsed none => []
  | LedgerRead.parsed (some ids) => ids

/-- The external world of one `main` run: the listing page source, the
document fetcher (`get_disclosure_document`, `none` on failure) and the
HTML table parser (`pd.read_html`, `none` when it raises). -/
structure Env where
  pages : Nat → Except String (List LRow)
  fetchDoc : String → Option String
  readHtml : String → Option (List DFrame)

/-- The notification data flow of `main`: the accession numbers for
which `send_to_telegram` is called.  In monitoring mode (`onlyNew`) the
ledger is loaded and discovered disclosures already in it are filtered
out before any processing; each remaining disclosure contributes an
entry to `telegram_data` exactly when its document fetches, a table is
extracted, is non-empty and normalizes to at least one record; the send
loop then attempts one send per entry when the telegram flag is set. -/
def mainAttempted (env : Env) (lf : LedgerRead) (searchDate : String)
    (sendTelegram onlyNew : Bool) : List String :=
  let sentLog := if onlyNew then load_sent_log lf else []
  let discovered := (search_prelim_earnings_kind searchDate env.pages).1
  if discovered.isEmpty then []
  else
    let remaining :=
      if onlyNew then discovered.filter (fun d => !(sentLog.contains d.acptno))
      else discovered
    if onlyNew && remaining.isEmpty then []
    else
      let telegramData := remaining.filterMap (fun d =>
        match env.fetchDoc d.acptno with
        | none => none
        | some html =>
          if html == "" then none
          else
            match extract_earnings_table env.readHtml html with
            | none => none
            | some tbl =>
              if tbl.rows.isEmpty || tbl.ncols == 0 then none
              else
                let long := normalize_earnings_table tbl d.corp_name d.stock_code d.acptno searchDate
                if long.isEmpty then none else some d.acptno)
      if sendTelegram then telegramData else []

/-- Closed form of the table score: each scoring step contributes its
summand independently. -/
theorem tableScore_closed (t : DFrame) :
    tableScore t =
      (if strContains t.rendering "매출액" then 10 else 0)
      + (if strContains t.rendering "영업이익" then 10 else 0)
      + (if strContains t.rendering "당기순이익" then 10 else 0)
      + (if strContains t.rendering "당기" || strContains t.rendering "당해" then 5 else 0)
      + (if strContains t.rendering "전기" then 5 else 0)
      + (if strContains t.rendering "전년동기" then 5 else 0)
      + (if 3 ≤ t.rows.length ∧ t.rows.length ≤ 30 ∧ 3 ≤ t.ncols ∧ t.ncols ≤ 15 then 5 else 0) := by
  cases h1 : strContains t.rendering "매출액" <;>
  cases h2 : strContains t.rendering "영업이익" <;>
  cases h3 : strContains t.rendering "당기순이익" <;>
  cases h4 : (strContains t.rendering "당기" || strContains t.rendering "당해") <;>
  cases h5 : strContains t.rendering "전기" <;>
  cases h6 : strContains t.rendering "전년동기" <;>
  by_cases h7 : (3 ≤ t.rows.length ∧ t.rows.length ≤ 30 ∧ 3 ≤ t.ncols ∧ t.ncols ≤ 15) <;>
  simp [tableScore, h1, h2, h3, h4, h5, h6, h7]

/-- A one-cell table whose rendering is the prior-period keyword 전기:
the code scores it 5, the claim's keyword list (with cumulative 누계 in
place of prior-period 전기) scores it 0. -/
def tblC3 : DFrame := ⟨[[none]], 1, "전기"⟩

/-- Claim C3 counterexample: the score computed by the code differs from
the claim's formula, whose middle period-indicator keyword is
"cumulative" (누계): a table whose rendering contains only 전기 scores 5
in the code but 0 under the claim's keyword list. -/
theorem c3_counterexample : tableScore tblC3 ≠ claimScoreC3 tblC3 := by decide

/-- Claim C3 (amended): the score computed by extract_earnings_table
equals +10 for each of the three required domain keywords present in the
table's textual rendering, plus +5 for the presence of each
period-indicator keyword — current-period (당기 or 당해), prior-period
(전기) and prior-year (전년동기) — plus a +5 bonus if the row count is
within [3,30] and the column count is within [3,15]. -/
theorem c3_score_closed_form (t : DFrame) :
    tableScore t =
      (if strContains t.rendering "매출액" then 10 else 0)
      + (if strContains t.rendering "영업이익" then 10 else 0)
      + (if strContains t.rendering "당기순이익" then 10 else 0)
      + (if strContains t.rendering "당기" || strContains t.rendering "당해" then 5 else 0)
      + (if strContains t.rendering "전기" then 5 else 0)
      + (if strContains t.rendering "전년동기" then 5 else 0)
      + (if 3 ≤ t.rows.length ∧ t.rows.length ≤ 30 ∧ 3 ≤ t.ncols ∧ t.ncols ≤ 15 then 5 else 0) :=
  tableScore_closed t

/-- Claim C6: clean_numeric returns 1234 for "1,234", -500 for "(500)",
none for "-", 12.5 for "12.5%"; and any value whose cleaned form does
not parse as a float yields none (the except branch), never an
exception. -/
theorem c6_clean_numeric :
    clean_numeric (some "1,234") = some 1234 ∧
    clean_numeric (some "(500)") = some (-500) ∧
    clean_numeric (some "-") = none ∧
    clean_numeric (some "12.5%") = some (25 / 2) ∧
    (∀ s : String, parseDec (parenNeg (stripSeps (trimChars s.toList))) = none →
      clean_numeric (some s) = none) := by
  refine ⟨by decide, by decide, by decide, ?_, ?_⟩
  · have h : clean_numeric (some "12.5%") = some ((12 : ℚ) + 5 / 10 ^ (1 : ℕ)) := rfl
    rw [h]
    norm_num
  · intro s hs
    simp only [clean_numeric]
    split_ifs with h
    · rfl
    · exact hs

/-- Witness for the universal part of C6 at the unparseable input "abc". -/
theorem c6_clean_numeric_witness : clean_numeric (some "abc") = none :=
  c6_clean_numeric.2.2.2.2 "abc" (by decide)

/-- Claim C10: a missing ledger file, an unreadable or unparseable one,
and a parsed document lacking the sent-id list all load as the empty
sent set (the loader is a total function of the read outcome). -/
theorem c10_ledger_load_failures_empty :
    load_sent_log LedgerRead.missing = [] ∧
    load_sent_log LedgerRead.unreadable = [] ∧
    load_sent_log (LedgerRead.parsed none) = [] :=
  ⟨rfl, rfl, rfl⟩

/-- The end-to-end scenario row of claim C5. -/
def c5row : List Cell :=
  [some "매출액", some "당해실적", some "1,000", some "800", some "25.0",
   some "-", some "900", some "11.1", some "-"]

/-- Claim C5: normalizing a table with the single row
["매출액","당해실적","1,000","800","25.0","-","900","11.1","-"] produces
exactly one record with metric 매출액, scope 당해실적, value_current 1000,
value_prev 800, qoq_change_pct 25, value_yoy 900, yoy_change_pct 11.1. -/
theorem c5_end_to_end :
    normalize_earnings_table ⟨[c5row], 9, ""⟩ "" "" "" "" =
      [{ corp_name := "", stock_code := "", rcp_no := "", report_date := "",
         metric := "매출액", scope := "당해실적",
         value_current := some 1000, value_prev := some 800,
         qoq_change_pct := some 25, qoq_turnaround := "-",
         value_yoy := some 900, yoy_change_pct := some (111 / 10),
         yoy_turnaround := "-", unit_value := "KRW_million", unit_pct := "percent" }] := by
  have h : normalize_earnings_table ⟨[c5row], 9, ""⟩ "" "" "" "" =
      [{ corp_name := "", stock_code := "", rcp_no := "", report_date := "",
         metric := "매출액", scope := "당해실적",
         value_current := some 1000, value_prev := some 800,
         qoq_change_pct := some ((25 : ℚ) + 0 / 10 ^ (1 : ℕ)), qoq_turnaround := "-",
         value_yoy := some 900, yoy_change_pct := some ((11 : ℚ) + 1 / 10 ^ (1 : ℕ)),
         yoy_turnaround := "-", unit_value := "KRW_million", unit_pct := "percent" }] := rfl
  rw [h]
  norm_num

/-- Invariant of the selection loop: starting from a best table of
positive score (or none), any selected table has positive score, since
an update requires the candidate's score to strictly exceed the
best-so-far score, a natural number. -/
theorem extractLoop_pos :
    ∀ (ts : List DFrame) (b : Option DFrame) (s : Nat),
      (∀ x, b = some x → 0 < tableScore x) →
      ∀ t, extractLoop ts b s = some t → 0 < tableScore t := by
  intro ts
  induction ts with
  | nil =>
    intro b s hb t ht
    exact hb t ht
  | cons hd tl ih =>
    intro b s hb t ht
    simp only [extractLoop] at ht
    by_cases h1 : (hd.rows.isEmpty || hd.ncols == 0) = true
    · rw [if_pos h1] at ht
      exact ih b s hb t ht
    · rw [if_neg h1] at ht
      by_cases h2 : s < tableScore hd
      · rw [if_pos h2] at ht
        refine ih (some hd) (tableScore hd) ?_ t ht
        intro x hx
        cases hx
        exact Nat.lt_of_le_of_lt (Nat.zero_le s) h2
      · rw [if_neg h2] at ht
        exact ih b s hb t ht

/-- A table returned by `extract_earnings_table` has positive score. -/
theorem extract_pos (readHtml : String → Option (List DFrame)) (html : String)
    (t : DFrame) (h : extract_earnings_table readHtml html = some t) :
    0 < tableScore t := by
  simp only [extract_earnings_table] at h
  split at h
  · exact absurd h (by simp)
  · split at h
    · exact absurd h (by simp)
    · split at h
      · exact absurd h (by simp)
      · exact extractLoop_pos _ none 0 (fun x hx => by cases hx) t h

/-- A 3-by-3 table containing none of the keywords: it earns the size
bonus alone. -/
def tblC4 : DFrame := ⟨List.replicate 3 [], 3, "xyz"⟩

/-- Claim C4 counterexample: a table containing none of the keywords
scores 5 (the size bonus), not 0, and is selected by
extract_earnings_table rather than excluded. -/
theorem c4_counterexample :
    tableScore tblC4 = 5 ∧
    extract_earnings_table (fun _ => some [tblC4]) "x" = some tblC4 := by
  constructor
  · decide
  · decide

/-- Claim C4 (amended): for tables A (all three required keywords plus
the optional prior-period and prior-year keywords), B (only the three
required keywords) and C (none of the keywords), score(A) > score(B) >
score(C); score(C) = 0 when C additionally lacks the size bonus (a
keyword-free table of in-range dimensions scores 5 and can be
selected); and extract_earnings_table never returns a zero-scoring
table. -/
theorem c4_score_monotonicity :
    (∀ A B C : DFrame,
      strContains A.rendering "매출액" = true →
      strContains A.rendering "영업이익" = true →
      strContains A.rendering "당기순이익" = true →
      strContains A.rendering "전기" = true →
      strContains A.rendering "전년동기" = true →
      strContains B.rendering "매출액" = true →
      strContains B.rendering "영업이익" = true →
      strContains B.rendering "당기순이익" = true →
      strContains B.rendering "당해" = false →
      strContains B.rendering "전기" = false →
      strContains B.rendering "전년동기" = false →
      strContains C.rendering "매출액" = false →
      strContains C.rendering "영업이익" = false →
      strContains C.rendering "당기순이익" = false →
      strContains C.rendering "당기" = false →
      strContains C.rendering "당해" = false →
      strContains C.rendering "전기" = false →
      strContains C.rendering "전년동기" = false →
      tableScore B < tableScore A ∧ tableScore C < tableScore B ∧
        (¬(3 ≤ C.rows.length ∧ C.rows.length ≤ 30 ∧ 3 ≤ C.ncols ∧ C.ncols ≤ 15) →
          tableScore C = 0)) ∧
    (∀ (readHtml : String → Option (List DFrame)) (html : String) (t : DFrame),
      extract_earnings_table readHtml html = some t → 0 < tableScore t) := by
  constructor
  · intro A B C hA1 hA2 hA3 hA4 hA5 hB1 hB2 hB3 hB4 hB5 hB6 hC1 hC2 hC3 hC4 hC5 hC6 hC7
    have hAg : strContains A.rendering "당기" = true := contains_dangi hA3
    have hBg : strContains B.rendering "당기" = true := contains_dangi hB3
    rw [tableScore_closed A, tableScore_closed B, tableScore_closed C]
    rw [hA1, hA2, hA3, hA4, hA5, hAg, hB1, hB2, hB3, hB4, hB5, hB6, hBg,
        hC1, hC2, hC3, hC4, hC5, hC6, hC7]
    simp only [Bool.or_self, Bool.or_true, Bool.true_or, Bool.or_false, Bool.false_or]
    refine ⟨?_, ?_, ?_⟩
    · by_cases sA : (3 ≤ A.rows.length ∧ A.rows.length ≤ 30 ∧ 3 ≤ A.ncols ∧ A.ncols ≤ 15) <;>
      by_cases sB : (3 ≤ B.rows.length ∧ B.rows.length ≤ 30 ∧ 3 ≤ B.ncols ∧ B.ncols ≤ 15) <;>
      simp [sA, sB]
    · by_cases sB : (3 ≤ B.rows.length ∧ B.rows.length ≤ 30 ∧ 3 ≤ B.ncols ∧ B.ncols ≤ 15) <;>
      by_cases sC : (3 ≤ C.rows.length ∧ C.rows.length ≤ 30 ∧ 3 ≤ C.ncols ∧ C.ncols ≤ 15) <;>
      simp [sB, sC]
    · intro hC8
      simp [hC8]
  · exact extract_pos

/-- Concrete table A for the C4 witness. -/
def tA4 : DFrame := ⟨List.replicate 3 [], 3, "매출액 영업이익 당기순이익 전기 전년동기"⟩

/-- Concrete table B for the C4 witness. -/
def tB4 : DFrame := ⟨List.replicate 3 [], 3, "매출액 영업이익 당기순이익"⟩

/-- Concrete keyword-free, bonus-free table C for the C4 witness. -/
def tC4e : DFrame := ⟨[], 0, "x"⟩

/-- Witness for C4 at concrete tables. -/
theorem c4_score_monotonicity_witness :
    (tableScore tB4 < tableScore tA4 ∧ tableScore tC4e < tableScore tB4 ∧
      (¬(3 ≤ tC4e.rows.length ∧ tC4e.rows.length ≤ 30 ∧ 3 ≤ tC4e.ncols ∧ tC4e.ncols ≤ 15) →
        tableScore tC4e = 0)) ∧
    0 < tableScore tblC4 := by
  constructor
  · exact c4_score_monotonicity.1 tA4 tB4 tC4e (by decide) (by decide) (by decide) (by decide)
      (by decide) (by decide) (by decide) (by decide) (by decide) (by decide) (by decide)
      (by decide) (by decide) (by decide) (by decide) (by decide) (by decide) (by decide)
  · exact c4_score_monotonicity.2 (fun _ => some [tblC4]) "x" tblC4 (by decide)

/-- A single matching row used twice in the C2 counterexample table. -/
def rowC2 : List Cell := [some "매출액", some "당해실적", some "1"]

/-- A table repeating the same matching row. -/
def tblC2 : DFrame := ⟨[rowC2, rowC2], 3, ""⟩

/-- Claim C2 counterexample: a table whose matching row appears twice
normalizes to two records sharing the same (metric, scope) pair — the
normalizer performs no per-pair deduplication. -/
theorem c2_counterexample :
    (normalize_earnings_table tblC2 "" "" "" "").map (fun r => (r.metric, r.scope)) =
      [("매출액", "당해실적"), ("매출액", "당해실적")] := by
  decide

/-- Claim C2 (amended): the normalizer emits one record per matched
input row; whenever the matched rows of the input table classify to
pairwise-distinct (metric, scope) pairs — as in a well-formed KIND
table — no two output records share the same metric and scope. -/
theorem c2_metric_scope_unique (df : DFrame) (corp stock acpt rdate : String)
    (h : (df.rows.filterMap (fun row => (rowToRecord corp stock acpt rdate row).map
          (fun r => (r.metric, r.scope)))).Pairwise (· ≠ ·)) :
    (normalize_earnings_table df corp stock acpt rdate).Pairwise
      (fun a b => (a.metric, a.scope) ≠ (b.metric, b.scope)) := by
  have key : (normalize_earnings_table df corp stock acpt rdate).map
      (fun r => (r.metric, r.scope)) =
      df.rows.filterMap (fun row => (rowToRecord corp stock acpt rdate row).map
        (fun r => (r.metric, r.scope))) := by
    simp [normalize_earnings_table, List.map_filterMap]
  have h2 : ((normalize_earnings_table df corp stock acpt rdate).map
      (fun r => (r.metric, r.scope))).Pairwise (· ≠ ·) := by
    rw [key]
    exact h
  exact List.pairwise_map.mp h2

/-- A two-row table with distinct metrics for the C2 witness. -/
def tblC2w : DFrame :=
  ⟨[[some "매출액", some "당해실적", some "1"], [some "영업이익", some "당해실적", some "2"]], 3, ""⟩

/-- Witness for C2 at a concrete two-row table. -/
theorem c2_metric_scope_unique_witness :
    (normalize_earnings_table tblC2w "" "" "" "").Pairwise
      (fun a b => (a.metric, a.scope) ≠ (b.metric, b.scope)) :=
  c2_metric_scope_unique tblC2w "" "" "" "" (by decide)

set_option maxRecDepth 10000

/-- A filler listing row that qualifies for nothing (no cells). -/
def dummyRow : LRow := ⟨0, none, none, "", ""⟩

/-- The single-quote character as a string, for building onclick
attribute values. -/
def sq : String := String.mk [Char.ofNat 39]

/-- A qualifying listing row carrying the given accession number in its
title anchor's onclick attribute. -/
def qrow (acpt : String) : LRow :=
  ⟨4, some ("잠정실적공시", "openDisclsViewer(" ++ sq ++ acpt ++ sq ++ ");"),
   some ("회사명", "companysummary_open(" ++ sq ++ "123456" ++ sq ++ ")"),
   "09:00", "제출인"⟩

/-- A listing source with pages of sizes 500, 500 and 120. -/
def srcC9 : Nat → Except String (List LRow) :=
  fun p =>
    if p == 1 then Except.ok (List.replicate 500 dummyRow)
    else if p == 2 then Except.ok (List.replicate 500 dummyRow)
    else if p == 3 then Except.ok (List.replicate 120 dummyRow)
    else Except.ok []

/-- The pagination loop fetches at most `fetched + fuel` pages. -/
theorem listLoop_count (d : String) (src : Nat → Except String (List LRow)) :
    ∀ (fuel page : Nat) (acc : List Disclosure) (fetched : Nat) (res : List Disclosure × Nat),
      listLoop d src fuel page acc fetched = Except.ok res → res.2 ≤ fetched + fuel := by
  intro fuel
  induction fuel with
  | zero =>
    intro page acc fetched res h
    simp only [listLoop] at h
    injection h with h2
    subst h2
    simp
  | succ n ih =>
    intro page acc fetched res h
    simp only [listLoop] at h
    split at h
    · exact Except.noConfusion h
    · split at h
      · injection h with h2
        subst h2
        simp only
        omega
      · split at h
        · injection h with h2
          subst h2
          simp only
          omega
        · have := ih (page + 1) _ (fetched + 1) res h
          omega

/-- Claim C9: the lister fetches pages until a page returns fewer rows
than the 500-row page size or the 10-page ceiling is reached — at most
10 pages ever, and a source with pages of sizes [500, 500, 120] yields
exactly 3 fetched pages. -/
theorem c9_pagination_termination :
    (∀ (d : String) (src : Nat → Except String (List LRow)),
      (search_prelim_earnings_kind d src).2 ≤ 10) ∧
    (search_prelim_earnings_kind "20260206" srcC9).2 = 3 := by
  constructor
  · intro d src
    unfold search_prelim_earnings_kind
    cases hl : listLoop d src 10 1 [] 0 with
    | ok res => simpa using listLoop_count d src 10 1 [] 0 res hl
    | error e => simp
  · rfl

/-- A full first page (500 rows) whose first row qualifies. -/
def pageC1 : List LRow := qrow "20260206000001" :: List.replicate 499 dummyRow

/-- A listing source whose first page succeeds with 500 rows and whose
second page raises a network error. -/
def srcC1 : Nat → Except String (List LRow) :=
  fun p => if p == 1 then Except.ok pageC1 else Except.error "connection reset"

/-- Claim C1 counterexample: with a qualifying record accumulated from
page 1 and a network exception on page 2, the function returns an empty
listing — not the records accumulated from earlier pages. -/
theorem c1_counterexample :
    (search_prelim_earnings_kind "20260206" srcC1).1 = [] ∧
    procRows "20260206" pageC1 [] ≠ [] := by
  constructor
  · rfl
  · decide

/-- Claim C1 (amended): a network or parse exception during any page's
fetch aborts the whole listing loop and the function returns an empty
record set — discarding what earlier pages accumulated — and never
propagates the exception to the caller. -/
theorem c1_exception_empties_listing (d : String) (src : Nat → Except String (List LRow))
    (e : String) (h : listLoop d src 10 1 [] 0 = Except.error e) :
    search_prelim_earnings_kind d src = ([], 0) := by
  unfold search_prelim_earnings_kind
  rw [h]

/-- Witness for C1's amended theorem at the failing source. -/
theorem c1_exception_empties_listing_witness :
    search_prelim_earnings_kind "20260206" srcC1 = ([], 0) :=
  c1_exception_empties_listing "20260206" srcC1 "connection reset" rfl

/-- The record the lister builds from the first row in the list that
qualifies and carries accession number `a`. -/
def qualFirst (d a : String) (rows : List LRow) : Option Disclosure :=
  rows.findSome? (fun r =>
    match rowRecord d r with
    | some rec => if rec.acptno == a then some rec else none
    | none => none)

/-- The records with accession number `a` in the row loop's output: when
the accumulator carries none yet, exactly the record of the first
qualifying row with that number (if any); otherwise the accumulator's,
unchanged. -/
theorem procRows_filter (d a : String) :
    ∀ (rows : List LRow) (acc : List Disclosure),
      (procRows d rows acc).filter (fun x => x.acptno == a) =
        if acc.filter (fun x => x.acptno == a) = [] then
          (match qualFirst d a rows with
           | some rec => [rec]
           | none => [])
        else acc.filter (fun x => x.acptno == a) := by
  intro rows
  induction rows with
  | nil =>
    intro acc
    simp only [procRows, qualFirst, List.findSome?_nil]
    by_cases h : acc.filter (fun x => x.acptno == a) = []
    · rw [if_pos h, h]
    · rw [if_neg h]
  | cons r rest ih =>
    intro acc
    simp only [procRows]
    cases hr : rowRecord d r with
    | none =>
      have hq : qualFirst d a (r :: rest) = qualFirst d a rest := by
        simp [qualFirst, List.findSome?_cons, hr]
      simp only [hr, hq]
      exact ih acc
    | some rec =>
      simp only [hr]
      by_cases hba : (rec.acptno == a) = true
      · have ha : rec.acptno = a := by simpa using hba
        have hq : qualFirst d a (r :: rest) = some rec := by
          simp [qualFirst, List.findSome?_cons, hr, ha]
        by_cases hacc : acc.any (fun x => x.acptno == rec.acptno) = true
        · rw [if_pos hacc]
          obtain ⟨x, hx, hxa⟩ := List.any_eq_true.mp hacc
          have hxmem : x ∈ acc.filter (fun y => y.acptno == a) := by
            rw [List.mem_filter]
            exact ⟨hx, by rw [← ha]; exact hxa⟩
          have hne : acc.filter (fun y => y.acptno == a) ≠ [] :=
            List.ne_nil_of_mem hxmem
          rw [ih acc, if_neg hne, if_neg hne]
        · rw [if_neg hacc]
          have haccnil : acc.filter (fun y => y.acptno == a) = [] := by
            rw [List.filter_eq_nil_iff]
            intro y hy hya
            apply hacc
            rw [List.any_eq_true]
            refine ⟨y, hy, ?_⟩
            have : y.acptno = a := by simpa using hya
            rw [this, ha]
            simp
          have hfil : (acc ++ [rec]).filter (fun y => y.acptno == a) = [rec] := by
            rw [List.filter_append, haccnil]
            simp [hba]
          rw [ih (acc ++ [rec]), hfil]
          simp only [hq]
          rw [if_pos haccnil]
          simp
      · have hne2 : rec.acptno ≠ a := by simpa using hba
        have hq : qualFirst d a (r :: rest) = qualFirst d a rest := by
          simp [qualFirst, List.findSome?_cons, hr, hne2]
        rw [hq]
        by_cases hacc : acc.any (fun x => x.acptno == rec.acptno) = true
        · rw [if_pos hacc]
          exact ih acc
        · rw [if_neg hacc]
          have hfil : (acc ++ [rec]).filter (fun y => y.acptno == a) =
              acc.filter (fun y => y.acptno == a) := by
            rw [List.filter_append]
            simp [hba]
          rw [ih (acc ++ [rec]), hfil]

/-- One unfolding step of the pagination loop. -/
theorem listLoop_step (d : String) (src : Nat → Except String (List LRow)) (fuel page : Nat)
    (acc : List Disclosure) (fetched : Nat) :
    listLoop d src (fuel + 1) page acc fetched =
      (match src page with
       | Except.error e => Except.error e
       | Except.ok rows =>
         if rows.length == 0 then Except.ok (acc, fetched + 1)
         else if rows.length < 500 then Except.ok (procRows d rows acc, fetched + 1)
         else listLoop d src fuel (page + 1) (procRows d rows acc) (fetched + 1)) := rfl

/-- On a single-page source the lister's output is the row loop's output
over that page. -/
theorem searchOnePage (d : String) (rows : List LRow) :
    (search_prelim_earnings_kind d (onePage rows)).1 = procRows d rows [] := by
  have h1 : onePage rows 1 = Except.ok rows := by simp [onePage]
  have h2 : onePage rows 2 = Except.ok ([] : List LRow) := by simp [onePage]
  unfold search_prelim_earnings_kind
  rw [show (10 : ℕ) = 9 + 1 from rfl, listLoop_step, h1]
  by_cases h0 : (rows.length == 0) = true
  · have hrows : rows = [] := List.length_eq_zero.mp (by simpa using h0)
    subst hrows
    rfl
  · simp only [if_neg h0]
    by_cases h5 : rows.length < 500
    · simp only [if_pos h5]
    · simp only [if_neg h5]
      rw [show (9 : ℕ) = 8 + 1 from rfl, listLoop_step, h2]
      simp

/-- Claim C7: when a qualifying row with accession number `a` occurs in
the listing (possibly several sharing that number), the lister's output
contains exactly one record with that number — the one built from the
first qualifying occurrence. -/
theorem c7_dedup_first (d a : String) (rows : List LRow) (rec : Disclosure)
    (h : qualFirst d a rows = some rec) :
    ((search_prelim_earnings_kind d (onePage rows)).1).filter (fun x => x.acptno == a) =
      [rec] := by
  rw [searchOnePage, procRows_filter d a rows []]
  simp [h]

/-- Witness for C7: two qualifying rows sharing an accession number
yield exactly one record, built from the first. -/
theorem c7_dedup_first_witness :
    ((search_prelim_earnings_kind "20260206"
        (onePage [qrow "20260206000001", dummyRow, qrow "20260206000001"])).1).filter
      (fun x => x.acptno == "20260206000001") =
      [{ time := "09:00", stock_code := "123456", corp_name := "회사명",
         title := "잠정실적공시", acptno := "20260206000001", submitter := "제출인",
         date := "20260206" }] :=
  c7_dedup_first "20260206" "20260206000001"
    [qrow "20260206000001", dummyRow, qrow "20260206000001"]
    { time := "09:00", stock_code := "123456", corp_name := "회사명",
      title := "잠정실적공시", acptno := "20260206000001", submitter := "제출인",
      date := "20260206" }
    (by decide)

/-- Claim C8: in monitoring mode, an accession number present in the
ledger loaded at cycle start is never among the numbers for which a
telegram send is attempted, whatever the run re-discovers. -/
theorem c8_ledger_suppression (env : Env) (lf : LedgerRead) (d X : String)
    (sendTg : Bool) (h : X ∈ load_sent_log lf) :
    X ∉ mainAttempted env lf d sendTg true := by
  intro hmem
  simp only [mainAttempted, if_true, Bool.true_and, ite_true] at hmem
  split at hmem
  · exact List.not_mem_nil X hmem
  · split at hmem
    · exact List.not_mem_nil X hmem
    · split at hmem
      · rw [List.mem_filterMap] at hmem
        obtain ⟨dd, hdd, hsome⟩ := hmem
        have hX : dd.acptno = X := by
          split at hsome
          · exact Option.noConfusion hsome
          · split at hsome
            · exact Option.noConfusion hsome
            · split at hsome
              · exact Option.noConfusion hsome
              · split at hsome
                · exact Option.noConfusion hsome
                · split at hsome
                  · exact Option.noConfusion hsome
                  · injection hsome
        rw [List.mem_filter] at hdd
        have hc := hdd.2
        rw [hX] at hc
        simp at hc
        exact hc h
      · exact List.not_mem_nil X hmem

/-- A concrete environment rediscovering the already-notified filing. -/
def envC8 : Env :=
  { pages := onePage [qrow "20260206000001"]
    fetchDoc := fun _ => none
    readHtml := fun _ => none }

/-- Witness for C8 at a concrete ledger and environment. -/
theorem c8_ledger_suppression_witness :
    "20260206000001" ∉
      mainAttempted envC8 (LedgerRead.parsed (some ["20260206000001"])) "20260206" true true :=
  c8_ledger_suppression envC8 (LedgerRead.parsed (some ["20260206000001"]))
    "20260206" "20260206000001" true (by simp [load_sent_log])

end DartPrelim
